import Mathlib

/-!
Shallow embedding of the groupscholar-essay-anonymizer redaction engine
(`main.go`).  Go strings are modelled as `List Char` (all claim-relevant
inputs are ASCII, where Go's byte view and the rune view agree), Go maps
`map[string]int` as insertion-ordered association lists, and the standard
library regexp engine as an explicit leftmost-first backtracking matcher
over a regex syntax tree transcribed from the source's pattern literals.
-/

set_option maxRecDepth 20000

namespace Anonymizer

/-! ## String helpers (models of Go `strings` functions) -/

/-- Model of checking that `p` occurs at the start of `s`. -/
def listStartsWith : List Char → List Char → Bool
  | [], _ => true
  | _ :: _, [] => false
  | p :: ps, c :: cs => p == c && listStartsWith ps cs

/-- A matched front piece is no longer than the string it starts. -/
theorem listStartsWith_length_le :
    ∀ pat s : List Char, listStartsWith pat s = true → pat.length ≤ s.length := by
  intro pat
  induction pat with
  | nil => intro s _; simp
  | cons p ps ih =>
    intro s h
    match s with
    | [] => simp [listStartsWith] at h
    | c :: cs =>
      simp only [listStartsWith, Bool.and_eq_true, beq_iff_eq] at h
      simpa using ih cs h.2

/-- The scan of `strings.ReplaceAll`, with a structural fuel so the
definition reduces in the kernel.  Each step consumes at least one
character, so a fuel of `s.length` never runs out (at fuel `0` the
remaining `s` is returned, which is only reached when `s = []`). -/
def listReplaceFuel : Nat → List Char → List Char → List Char → List Char
  | 0, s, _, _ => s
  | fuel + 1, s, pat, rep =>
    if pat ≠ [] ∧ listStartsWith pat s = true then
      rep ++ listReplaceFuel fuel (s.drop pat.length) pat rep
    else
      match s with
      | [] => []
      | c :: rest => c :: listReplaceFuel fuel rest pat rep

/-- Model of Go `strings.ReplaceAll s pat rep` for a nonempty `pat`:
left-to-right scan replacing each non-overlapping occurrence.
(For `pat = []` Go would intersperse `rep`; the program only ever calls
`ReplaceAll` with nonempty literals, and this model returns `s` there.) -/
def listReplace (s pat rep : List Char) : List Char :=
  listReplaceFuel s.length s pat rep

/-- Containment of `pat` as a contiguous substring of `s` (used to state
"the template has no occurrence of a placeholder"). -/
def containsSub (pat s : List Char) : Bool :=
  listStartsWith pat s ||
    match s with
    | [] => false
    | _ :: rest => containsSub pat rest

/-- If `pat` never occurs in `s`, the replacement scan leaves `s` unchanged. -/
theorem listReplaceFuel_of_not_containsSub (pat rep : List Char) :
    ∀ (fuel : Nat) (s : List Char), containsSub pat s = false →
      listReplaceFuel fuel s pat rep = s := by
  intro fuel
  induction fuel with
  | zero => intro s _; rfl
  | succ fuel ih =>
    intro s hno
    match s with
    | [] =>
      simp only [containsSub, Bool.or_eq_false_iff] at hno
      rw [listReplaceFuel, if_neg (by simp [hno.1])]
    | c :: rest =>
      simp only [containsSub, Bool.or_eq_false_iff] at hno
      rw [listReplaceFuel, if_neg (by simp [hno.1])]
      simp [ih rest hno.2]

theorem listReplace_of_not_containsSub (pat rep : List Char)
    (s : List Char) (hno : containsSub pat s = false) : listReplace s pat rep = s :=
  listReplaceFuel_of_not_containsSub pat rep s.length s hno

/-- Go `unicode.IsSpace` restricted to ASCII, as used by `strings.TrimSpace`. -/
def isGoSpaceByte (c : Char) : Bool :=
  c == ' ' || c == '\t' || c == '\n' || c == '\x0b' || c == '\x0c' || c == '\r'

/-- Model of Go `strings.TrimSpace`. -/
def goTrimSpace (s : List Char) : List Char :=
  ((s.dropWhile isGoSpaceByte).reverse.dropWhile isGoSpaceByte).reverse

/-! ## The credit-card validator (`luhnValid`, `luhnValidToken`) -/

/-- One step of the Go loop body in `luhnValid`: the contribution of a
digit value `d` given the current `double` flag. -/
def luhnDigitContribution (dbl : Bool) (d : Nat) : Nat :=
  if dbl then
    let t := d * 2
    if t > 9 then t - 9 else t
  else d

/-- The loop of `luhnValid` (`for i := len(number)-1; i >= 0; i--`),
running over the characters right to left; `none` models the early
`return false` on a non-digit byte. -/
def luhnLoop : List Char → Bool → Nat → Option Nat
  | [], _, sum => some sum
  | c :: rest, dbl, sum =>
    if c < '0' ∨ c > '9' then none
    else luhnLoop rest (!dbl) (sum + luhnDigitContribution dbl (c.toNat - 48))

/-- Model of `luhnValid` from `main.go`: length gate 13–19, right-to-left
scan doubling every second digit, validity iff the sum is 0 mod 10. -/
def luhnValid (number : List Char) : Bool :=
  if number.length < 13 ∨ number.length > 19 then false
  else
    match luhnLoop number.reverse false 0 with
    | none => false
    | some sum => sum % 10 == 0

/-- The stripping step of `luhnValidToken`: remove spaces, then hyphens
(`strings.ReplaceAll` twice). -/
def strippedToken (raw : List Char) : List Char :=
  listReplace (listReplace raw [' '] []) ['-'] []

/-- Model of `luhnValidToken` from `main.go`: strip spaces and hyphens,
then validate. -/
def luhnValidToken (raw : List Char) : Bool :=
  luhnValid (strippedToken raw)

/-! ### Independent Luhn computation, written from the spec's words -/

mutual
/-- Spec-side Luhn sum over digit values listed rightmost first: the
rightmost digit (position 0) is not doubled. -/
def specLuhnSum : List Nat → Nat
  | [] => 0
  | d :: rest => d + specLuhnSumDbl rest

/-- Spec-side Luhn sum at a doubled position: "double every second digit
starting from the second-from-rightmost; if a doubled digit exceeds 9,
subtract 9". -/
def specLuhnSumDbl : List Nat → Nat
  | [] => 0
  | d :: rest => (if d * 2 > 9 then d * 2 - 9 else d * 2) + specLuhnSum rest
end

/-- A character Go's `luhnValid` accepts as a digit byte. -/
def isGoDigit (c : Char) : Bool := !(c < '0' ∨ c > '9')

/-- The loop result exists exactly when every character is a digit, and
then it adds the alternating-doubled digit sum to the accumulator. -/
theorem luhnLoop_eq (l : List Char) :
    ∀ dbl sum,
      luhnLoop l dbl sum =
        if l.all isGoDigit then
          some (sum +
            (if dbl then specLuhnSumDbl (l.map (fun c => c.toNat - 48))
             else specLuhnSum (l.map (fun c => c.toNat - 48))))
        else none := by
  induction l with
  | nil => intro dbl sum; simp [luhnLoop, specLuhnSum, specLuhnSumDbl]
  | cons c rest ih =>
    intro dbl sum
    simp only [luhnLoop, List.all_cons, List.map_cons]
    by_cases hc : c < '0' ∨ c > '9'
    · simp [hc, isGoDigit]
    · rw [if_neg hc, ih]
      by_cases hall : rest.all isGoDigit
      · cases dbl <;>
          simp [hall, isGoDigit, hc, specLuhnSum, specLuhnSumDbl,
            luhnDigitContribution] <;> omega
      · simp [hall, isGoDigit, hc]

/-! ## Regex engine

A leftmost-first backtracking matcher with the same preference semantics
as Go's `regexp` package (earliest start position; at that position, the
candidate a Perl-style backtracking search would find first).  Counted
repetitions `{m,n}` of the source patterns are expanded into
concatenations of greedy optionals when the syntax trees are transcribed
below. -/

/-- Regex syntax trees: empty string, single-character class, sequencing,
preferred-first alternation, (greedy or lazy) star, and the zero-width
word-boundary assertion. -/
inductive Regex where
  | eps : Regex
  | cls : (Char → Bool) → Regex
  | cat : Regex → Regex → Regex
  | alt : Regex → Regex → Regex
  | star : Bool → Regex → Regex
  | wordB : Regex

/-- An ASCII word character for the purposes of the matcher's word
boundary (`\b` in RE2): `[0-9A-Za-z_]`. -/
def isWordChar (c : Char) : Bool :=
  c.isAlpha || c.isDigit || c == '_'

/-- A word boundary stands between the previous character (if any) and
the next character (if any) when exactly one of them is a word character. -/
def isWordBoundary (prev next : Option Char) : Bool :=
  (match prev with | none => false | some c => isWordChar c) !=
    (match next with | none => false | some c => isWordChar c)

/-- The number of syntax-tree nodes of a regex, used to size the
matcher's fuel. -/
def regexSize : Regex → Nat
  | .eps => 1
  | .cls _ => 1
  | .cat a b => regexSize a + regexSize b + 1
  | .alt a b => regexSize a + regexSize b + 1
  | .star _ r => regexSize r + 1
  | .wordB => 1

/-- Candidate continuations, in preference order, of matching `re`
against the front of `s`; each candidate is the last consumed character
(for later boundary checks) together with the remaining suffix.  The
fuel (which makes the recursion structural, so the definition reduces
in the kernel) bounds the call depth; a star iteration is only attempted
when the body consumed at least one character, as in RE2, so the depth
never exceeds `regexSize re * (s.length + 2)` and the fuel the callers
below supply is never exhausted. -/
def matchHere : Nat → Regex → Option Char → List Char → List (Option Char × List Char)
  | 0, _, _, _ => []
  | fuel + 1, re, prev, s =>
    match re with
    | .eps => [(prev, s)]
    | .cls p =>
      match s with
      | [] => []
      | c :: rest => if p c then [(some c, rest)] else []
    | .cat a b => (matchHere fuel a prev s).flatMap fun pr => matchHere fuel b pr.1 pr.2
    | .alt a b => matchHere fuel a prev s ++ matchHere fuel b prev s
    | .star g r =>
      let stepped :=
        ((matchHere fuel r prev s).filter fun pr => pr.2.length < s.length).flatMap
          fun pr => matchHere fuel (.star g r) pr.1 pr.2
      if g then stepped ++ [(prev, s)] else (prev, s) :: stepped
    | .wordB => if isWordBoundary prev s.head? then [(prev, s)] else []

/-- Fuel sufficient for `matchHere` on `re` against `s`. -/
def matchFuel (re : Regex) (s : List Char) : Nat :=
  regexSize re * (s.length + 2) + 2

/-- Earliest match of `re` at or after the current point: scan start
positions left to right; at the first position with a candidate, take
the preferred one.  Returns `(start index, matched length)`. -/
def firstMatchAux (re : Regex) : Option Char → List Char → Nat → Option (Nat × Nat)
  | prev, s, idx =>
    match matchHere (matchFuel re s) re prev s with
    | pr :: _ => some (idx, s.length - pr.2.length)
    | [] =>
      match s with
      | [] => none
      | c :: rest => firstMatchAux re (some c) rest (idx + 1)

/-- Earliest match of `re` in `content` starting at or after byte
position `pos` (the previous character is looked up for boundary
assertions). -/
def findFromPos (re : Regex) (content : List Char) (pos : Nat) : Option (Nat × Nat) :=
  firstMatchAux re (if pos = 0 then none else content.get? (pos - 1)) (content.drop pos) pos

/-- The loop of Go's `allMatches`: successive non-overlapping matches
from left to right; an empty match at the end position of the previous
match is skipped, and after an empty match the scan advances one rune. -/
def allMatchesLoop (re : Regex) (content : List Char) :
    Nat → Nat → Option Nat → List (Nat × Nat)
  | 0, _, _ => []
  | fuel + 1, pos, prevEnd =>
    if pos > content.length then []
    else
      match findFromPos re content pos with
      | none => []
      | some (st, len) =>
        if len = 0 then
          let rest := allMatchesLoop re content fuel (st + 1) (some st)
          if prevEnd = some st then rest else (st, 0) :: rest
        else (st, len) :: allMatchesLoop re content fuel (st + len) (some (st + len))

/-- All non-overlapping matches of `re` in `content`, as
`(start, length)` pairs — the model of `FindAllStringIndex(content, -1)`
and of the match enumeration inside `ReplaceAll*`. -/
def allMatches (re : Regex) (content : List Char) : List (Nat × Nat) :=
  allMatchesLoop re content (content.length + 2) 0 none

/-- The text of a match given as `(start, length)`. -/
def matchText (content : List Char) (m : Nat × Nat) : List Char :=
  (content.drop m.1).take m.2

/-- Splice replacements into `content`: `items` lists
`(start, length, replacement)` for ascending, non-overlapping spans;
`pos` is the cursor into the original content. -/
def spliceAux (content : List Char) : Nat → List (Nat × Nat × List Char) → List Char
  | pos, [] => content.drop pos
  | pos, (st, len, rep) :: rest =>
    (content.drop pos).take (st - pos) ++ rep ++ spliceAux content (st + len) rest

/-! ## Syntax-tree builders used to transcribe the source's pattern literals -/

/-- Concatenation of a list of regexes, in order. -/
def cats : List Regex → Regex := fun l => l.foldr Regex.cat Regex.eps

/-- A single literal character. -/
def litc (c : Char) : Regex := Regex.cls fun x => x == c

/-- A literal string. -/
def strR (s : String) : Regex := cats (s.data.map litc)

/-- Greedy optional, `x?`. -/
def opt (r : Regex) : Regex := Regex.alt r Regex.eps

/-- Greedy plus, `x+`. -/
def plus (r : Regex) : Regex := Regex.cat r (Regex.star true r)

/-- Exactly `n` copies in sequence, `x{n}`. -/
def repN (n : Nat) (r : Regex) : Regex := cats (List.replicate n r)

/-- Greedy chain of at most `k` further copies, used to expand `{m,n}`
(the backtracking search prefers more copies, as RE2's greedy counted
repetition does). -/
def optChain (r : Regex) : Nat → Regex
  | 0 => Regex.eps
  | k + 1 => opt (Regex.cat r (optChain r k))

/-- Greedy counted repetition `x{m,m+k}`. -/
def repRange (r : Regex) (m k : Nat) : Regex := Regex.cat (repN m r) (optChain r k)

/-- Preference-ordered alternation of a list, `a|b|c|…`. -/
def alts : List Regex → Regex
  | [] => Regex.eps
  | [r] => r
  | r :: rest => Regex.alt r (alts rest)

/-! ## The eight built-in detectors (transcribed from `buildPatterns`) -/

/-- RE2's `\s`: `[\t\n\f\r ]`. -/
def clsSpace : Regex := Regex.cls fun c =>
  c == '\t' || c == '\n' || c == '\x0c' || c == '\r' || c == ' '

/-- RE2's `\d`: `[0-9]`. -/
def clsD : Regex := Regex.cls Char.isDigit

/-- The email pattern `[A-Za-z0-9._%+-]+@[A-Za-z0-9.-]+\.[A-Za-z]{2,}`. -/
def emailRe : Regex :=
  cats [plus (Regex.cls fun c =>
          c.isAlpha || c.isDigit || c == '.' || c == '_' || c == '%' || c == '+' || c == '-'),
    litc '@',
    plus (Regex.cls fun c => c.isAlpha || c.isDigit || c == '.' || c == '-'),
    litc '.',
    Regex.cls Char.isAlpha, Regex.cls Char.isAlpha, Regex.star true (Regex.cls Char.isAlpha)]

/-- The separator class `[\s.-]` of the phone pattern. -/
def clsPhoneSep : Regex := Regex.cls fun c =>
  c == '\t' || c == '\n' || c == '\x0c' || c == '\r' || c == ' ' || c == '.' || c == '-'

/-- The phone pattern
`(?i)(?:\+?1[\s.-]?)?(?:\(\s*\d{3}\s*\)|\d{3})[\s.-]?\d{3}[\s.-]?\d{4}`
(the `(?i)` flag only affects letters, and the pattern contains none). -/
def phoneRe : Regex :=
  cats [opt (cats [opt (litc '+'), litc '1', opt clsPhoneSep]),
    Regex.alt
      (cats [litc '(', Regex.star true clsSpace, repN 3 clsD, Regex.star true clsSpace,
        litc ')'])
      (repN 3 clsD),
    opt clsPhoneSep, repN 3 clsD, opt clsPhoneSep, repN 4 clsD]

/-- The SSN pattern `\b\d{3}-\d{2}-\d{4}\b`. -/
def ssnRe : Regex :=
  cats [Regex.wordB, repN 3 clsD, litc '-', repN 2 clsD, litc '-', repN 4 clsD, Regex.wordB]

/-- The date-of-birth pattern
`\b(?:0?[1-9]|1[0-2])S(?:0?[1-9]|[12]\d|3[01])S(?:19|20)\d{2}\b`,
where `S` stands for the source's slash-or-hyphen character class. -/
def dobRe : Regex :=
  cats [Regex.wordB,
    Regex.alt
      (Regex.cat (opt (litc '0')) (Regex.cls fun c => '1' ≤ c && c ≤ '9'))
      (Regex.cat (litc '1') (Regex.cls fun c => '0' ≤ c && c ≤ '2')),
    Regex.cls (fun c => c == '/' || c == '-'),
    alts [Regex.cat (opt (litc '0')) (Regex.cls fun c => '1' ≤ c && c ≤ '9'),
      Regex.cat (Regex.cls fun c => c == '1' || c == '2') clsD,
      Regex.cat (litc '3') (Regex.cls fun c => c == '0' || c == '1')],
    Regex.cls (fun c => c == '/' || c == '-'),
    Regex.alt (strR "19") (strR "20"),
    repN 2 clsD, Regex.wordB]

/-- The street-address pattern `\b\d+\s+[A-Za-z0-9.\-\s]+\s+(?:Street|St|Avenue|Ave|Road|Rd|Boulevard|Blvd|Drive|Dr|Lane|Ln|Way|Court|Ct)\b`. -/
def streetAddressRe : Regex :=
  cats [Regex.wordB, plus clsD, plus clsSpace,
    plus (Regex.cls fun c =>
      c.isAlpha || c.isDigit || c == '.' || c == '-' ||
        c == '\t' || c == '\n' || c == '\x0c' || c == '\r' || c == ' '),
    plus clsSpace,
    alts ([ "Street", "St", "Avenue", "Ave", "Road", "Rd", "Boulevard", "Blvd",
      "Drive", "Dr", "Lane", "Ln", "Way", "Court", "Ct"].map strR),
    Regex.wordB]

/-- The URL pattern `\bhttps?://[^\s]+`. -/
def urlRe : Regex :=
  cats [Regex.wordB, strR "http", opt (litc 's'), strR "://",
    plus (Regex.cls fun c =>
      !(c == '\t' || c == '\n' || c == '\x0c' || c == '\r' || c == ' '))]

/-- One to three digits `\d{1,3}`, greedy. -/
def d13 : Regex := Regex.cat clsD (opt (Regex.cat clsD (opt clsD)))

/-- The IP-address pattern `\b(?:\d{1,3}\.){3}\d{1,3}\b`. -/
def ipAddressRe : Regex :=
  cats [Regex.wordB, d13, litc '.', d13, litc '.', d13, litc '.', d13, Regex.wordB]

/-- The credit-card pattern `\b(?:\d[ -]*?){13,19}\b`; the inner `[ -]*?` is lazy. -/
def creditCardRe : Regex :=
  cats [Regex.wordB,
    repRange (Regex.cat clsD (Regex.star false (Regex.cls fun c => c == ' ' || c == '-'))) 13 6,
    Regex.wordB]

/-! ## Detector set construction (`buildPatterns`, `buildNamePatterns`) -/

/-- A detector, as in the source: a label and a compiled pattern. -/
structure pattern where
  label : String
  re : Regex

/-- The fixed built-in detector list of `buildPatterns`, in source order. -/
def builtinPatterns : List pattern :=
  [⟨"email", emailRe⟩, ⟨"phone", phoneRe⟩, ⟨"ssn", ssnRe⟩, ⟨"dob", dobRe⟩,
    ⟨"street_address", streetAddressRe⟩, ⟨"url", urlRe⟩, ⟨"ip_address", ipAddressRe⟩,
    ⟨"credit_card", creditCardRe⟩]

/-- The error message `fmt.Errorf("invalid custom regex %q: %w", raw, err)`
(with `%q` modelled as plain double quoting). -/
def invalidCustomRegexMsg (raw err : String) : String :=
  "invalid custom regex \"" ++ raw ++ "\": " ++ err

/-- The custom-regex loop of `buildPatterns`, appending to the
accumulated list and failing on the first non-compiling raw string;
`compile` models the library's `regexp.Compile`. -/
def buildPatternsLoop (compile : String → Except String Regex) :
    List String → List pattern → Except String (List pattern)
  | [], acc => .ok acc
  | raw :: rest, acc =>
    match compile raw with
    | .error e => .error (invalidCustomRegexMsg raw e)
    | .ok re => buildPatternsLoop compile rest (acc ++ [⟨"custom:" ++ raw, re⟩])

/-- Model of `buildPatterns`: the built-ins followed by one detector per
custom regex, in order. -/
def buildPatterns (compile : String → Except String Regex) (custom : List String) :
    Except String (List pattern) :=
  buildPatternsLoop compile custom builtinPatterns

/-- The case-insensitive whole-word pattern `(?i)\b<name>\b` produced by
`buildNamePatterns` (the `regexp.QuoteMeta` escaping makes the name
letters literal, which the syntax tree is by construction). -/
def nameRegex (name : String) : Regex :=
  cats ([Regex.wordB] ++ name.data.map (fun c => Regex.cls fun x => x.toLower == c.toLower)
    ++ [Regex.wordB])

/-- Model of `buildNamePatterns`. -/
def buildNamePatterns (names : List String) : List pattern :=
  names.map fun name => ⟨"name:" ++ name, nameRegex name⟩

/-- The detector set `main` assembles: `buildPatterns` plus the name
detectors appended after it. -/
def mainPatterns (compile : String → Except String Regex) (custom names : List String) :
    Except String (List pattern) :=
  match buildPatterns compile custom with
  | .error e => .error e
  | .ok pats => .ok (pats ++ buildNamePatterns names)

/-! ## Counting and the mask-template resolver -/

/-- Go `redactions[k] += d` on a `map[string]int`, modelled as an
insertion-ordered association list (the program only ever iterates the
map to sum it or to look labels up, so iteration order is immaterial). -/
def goMapAdd (m : List (String × Nat)) (k : String) (d : Nat) : List (String × Nat) :=
  match m with
  | [] => [(k, d)]
  | (k', v) :: rest => if k' = k then (k', v + d) :: rest else (k', v) :: goMapAdd rest k d

/-- Go map read `m[k]` (zero value for a missing key). -/
def goMapGet (m : List (String × Nat)) (k : String) : Nat :=
  match m with
  | [] => 0
  | (k', v) :: rest => if k' = k then v else goMapGet rest k

/-- Model of `strings.ReplaceAll` on strings. -/
def goReplaceAll (s pat rep : String) : String :=
  ⟨listReplace s.data pat.data rep.data⟩

/-- Model of `applyMaskTemplate` from `main.go`: substitute `{label}`,
then substitute `{n}` in the result. -/
def applyMaskTemplate (template label : String) (index : Nat) : String :=
  goReplaceAll (goReplaceAll template "{label}" label) "{n}" (Nat.repr index)

/-! ## The per-document redaction pass (`redactFile`, lines 709–780) -/

/-- Model of `ReplaceAllStringFunc`: the replacement closure `f` is run
on each match's text in left-to-right order, threading the closure's
captured mutable state `σ`; the result pairs each match with its
replacement, together with the final state. -/
def replaceFuncFold {σ : Type} (content : List Char) (f : List Char → σ → List Char × σ) :
    List (Nat × Nat) → σ → List (Nat × Nat × List Char) × σ
  | [], s => ([], s)
  | mt :: rest, s =>
    let step := f (matchText content mt) s
    let tail := replaceFuncFold content f rest step.2
    ((mt.1, mt.2, step.1) :: tail.1, tail.2)

/-- The closure of the mask-template branch: skip Luhn-invalid
credit-card matches verbatim, otherwise advance the per-detector counter,
bump the label's count and emit the resolved template. -/
def templateClosure (label mt : String) (text : List Char) :
    Nat × List (String × Nat) → List Char × (Nat × List (String × Nat))
  | (counter, redactions) =>
    if label = "credit_card" ∧ luhnValidToken text = false then
      (text, (counter, redactions))
    else
      ((applyMaskTemplate mt label (counter + 1)).data,
        (counter + 1, goMapAdd redactions label 1))

/-- The closure of the literal-mask credit-card branch: skip Luhn-invalid
matches verbatim, otherwise bump the count and emit the mask. -/
def ccMaskClosure (label mask : String) (text : List Char) :
    List (String × Nat) → List Char × List (String × Nat)
  | redactions =>
    if luhnValidToken text = false then (text, redactions)
    else (mask.data, goMapAdd redactions label 1)

/-- One iteration of the detector loop in `redactFile`, rewriting the
current content and the counts map.  `mt` is the already-trimmed mask
template. -/
def applyPattern (mask mt : String) (pat : pattern) :
    List Char × List (String × Nat) → List Char × List (String × Nat)
  | (content, redactions) =>
    if mt ≠ "" then
      let ms := allMatches pat.re content
      let folded := replaceFuncFold content (templateClosure pat.label mt) ms (0, redactions)
      (spliceAux content 0 folded.1, folded.2.2)
    else if pat.label = "credit_card" then
      let ms := allMatches pat.re content
      let folded := replaceFuncFold content (ccMaskClosure pat.label mask) ms redactions
      (spliceAux content 0 folded.1, folded.2)
    else
      let ms := allMatches pat.re content
      if ms.isEmpty then (content, redactions)
      else
        (spliceAux content 0 (ms.map fun m => (m.1, m.2, mask.data)),
          goMapAdd redactions pat.label ms.length)

/-- The detector loop: each detector's pass operates on the content
already rewritten by all earlier detectors. -/
def redactLoop (mask mt : String) :
    List pattern → List Char × List (String × Nat) → List Char × List (String × Nat)
  | [], st => st
  | pat :: rest, st => redactLoop mask mt rest (applyPattern mask mt pat st)

/-- The pure redaction core of `redactFile` (lines 715–747): trim the
template once, then run every detector in order over the document,
returning the rewritten content and the per-label counts. -/
def redactContentCore (patterns : List pattern) (mask maskTemplateRaw content : String) :
    String × List (String × Nat) :=
  let mt : String := ⟨goTrimSpace maskTemplateRaw.data⟩
  let res := redactLoop mask mt patterns (content.data, [])
  (⟨res.1⟩, res.2)

/-- A per-document outcome (`fileReport`). -/
structure fileReport where
  source : String
  target : String
  redactions : List (String × Nat)
  total : Nat
deriving DecidableEq, Repr

/-- The `total` accumulation loop of `redactFile`
(`for _, count := range redactions { total += count }`). -/
def sumRedactions (m : List (String × Nat)) : Nat :=
  m.foldl (fun acc kv => acc + kv.2) 0

/-- Model of `redactFile` (lines 709–780): the document content stands
in for the `os.ReadFile` result, `rel` for the `filepath.Rel`
computation, and the returned list of `(path, data)` pairs records the
`os.WriteFile` effects.  With `dryRun` set, nothing is written. -/
def redactFileModel (content path rel outputRoot : String) (patterns : List pattern)
    (mask maskTemplate : String) (dryRun : Bool) : fileReport × List (String × String) :=
  let core := redactContentCore patterns mask maskTemplate content
  let target := if outputRoot = "" then "" else outputRoot ++ "/" ++ rel
  let writes := if dryRun then [] else [(target, core.1)]
  (⟨path, target, core.2, sumRedactions core.2⟩, writes)

/-! ## SHA-256

The spec's Mask Resolver derives hash fragments from "a cryptographic
digest" with a 64-hex-character encoding, i.e. a 256-bit digest; the
hashing build of the program is not part of the source snapshot, so the
digest is modelled concretely as SHA-256 over the UTF-8 bytes of the
input. -/

/-- Rotation of the low 32 bits of `x` to the right by `n`. -/
def rotr32 (n x : Nat) : Nat := ((x >>> n) ||| (x <<< (32 - n))) % 2 ^ 32

/-- The sixty-four SHA-256 round constants, in decimal. -/
def sha256K : List Nat :=
  [1116352408, 1899447441, 3049323471, 3921009573, 961987163, 1508970993,
   2453635748, 2870763221, 3624381080, 310598401, 607225278, 1426881987,
   1925078388, 2162078206, 2614888103, 3248222580, 3835390401, 4022224774,
   264347078, 604807628, 770255983, 1249150122, 1555081692, 1996064986,
   2554220882, 2821834349, 2952996808, 3210313671, 3336571891, 3584528711,
   113926993, 338241895, 666307205, 773529912, 1294757372, 1396182291,
   1695183700, 1986661051, 2177026350, 2456956037, 2730485921, 2820302411,
   3259730800, 3345764771, 3516065817, 3600352804, 4094571909, 275423344,
   430227734, 506948616, 659060556, 883997877, 958139571, 1322822218,
   1537002063, 1747873779, 1955562222, 2024104815, 2227730452, 2361852424,
   2428436474, 2756734187, 3204031479, 3329325298]

/-- The eight 32-bit working words of the SHA-256 state. -/
structure Sha256State where
  a : Nat
  b : Nat
  c : Nat
  d : Nat
  e : Nat
  f : Nat
  g : Nat
  h : Nat

/-- The SHA-256 initial hash value, in decimal. -/
def sha256Init : Sha256State :=
  ⟨1779033703, 3144134277, 1013904242, 2773480762,
   1359893119, 2600822924, 528734635, 1541459225⟩

/-- Extend the 16 message words (given most-recent-first) by `k` further
schedule words. -/
def sha256Extend (ws : List Nat) : Nat → List Nat
  | 0 => ws
  | k + 1 =>
    let s0 :=
      rotr32 7 (ws.getD 14 0) ^^^ rotr32 18 (ws.getD 14 0) ^^^ (ws.getD 14 0 >>> 3)
    let s1 :=
      rotr32 17 (ws.getD 1 0) ^^^ rotr32 19 (ws.getD 1 0) ^^^ (ws.getD 1 0 >>> 10)
    sha256Extend (((ws.getD 15 0 + s0 + ws.getD 6 0 + s1) % 2 ^ 32) :: ws) k

/-- One SHA-256 compression round with round constant and schedule word. -/
def sha256Round (st : Sha256State) (kw : Nat × Nat) : Sha256State :=
  let s1 := rotr32 6 st.e ^^^ rotr32 11 st.e ^^^ rotr32 25 st.e
  let ch := (st.e &&& st.f) ^^^ (((2 ^ 32 - 1) ^^^ st.e) &&& st.g)
  let t1 := (st.h + s1 + ch + kw.1 + kw.2) % 2 ^ 32
  let s0 := rotr32 2 st.a ^^^ rotr32 13 st.a ^^^ rotr32 22 st.a
  let maj := (st.a &&& st.b) ^^^ (st.a &&& st.c) ^^^ (st.b &&& st.c)
  let t2 := (s0 + maj) % 2 ^ 32
  ⟨(t1 + t2) % 2 ^ 32, st.a, st.b, st.c, (st.d + t1) % 2 ^ 32, st.e, st.f, st.g⟩

/-- Compress one 16-word block into the running state. -/
def sha256Block (st : Sha256State) (block : List Nat) : Sha256State :=
  let ws := (sha256Extend block.reverse 48).reverse
  let r := (sha256K.zip ws).foldl sha256Round st
  ⟨(st.a + r.a) % 2 ^ 32, (st.b + r.b) % 2 ^ 32, (st.c + r.c) % 2 ^ 32,
   (st.d + r.d) % 2 ^ 32, (st.e + r.e) % 2 ^ 32, (st.f + r.f) % 2 ^ 32,
   (st.g + r.g) % 2 ^ 32, (st.h + r.h) % 2 ^ 32⟩

/-- Big-endian byte rendering of `x` in `len` bytes. -/
def toBytesBE (len x : Nat) : List Nat :=
  (List.range len).map fun i => (x >>> (8 * (len - 1 - i))) % 256

/-- SHA-256 padding: `0x80`, zeros, and the 64-bit big-endian bit length. -/
def sha256Pad (msg : List Nat) : List Nat :=
  msg ++ [0x80] ++ List.replicate ((64 - ((msg.length + 9) % 64)) % 64) 0
    ++ toBytesBE 8 (8 * msg.length)

/-- Split into 64-byte chunks (structural fuel; each step drops at
least one byte, so a fuel of `l.length` never runs out). -/
def chunks64Fuel : Nat → List Nat → List (List Nat)
  | 0, _ => []
  | fuel + 1, l =>
    match l with
    | [] => []
    | x :: rest => ((x :: rest).take 64) :: chunks64Fuel fuel ((x :: rest).drop 64)

/-- Split into 64-byte chunks. -/
def chunks64 (l : List Nat) : List (List Nat) := chunks64Fuel l.length l

/-- Group bytes into big-endian 32-bit words. -/
def bytesToWords : List Nat → List Nat
  | b0 :: b1 :: b2 :: b3 :: rest =>
    (b0 * 2 ^ 24 + b1 * 2 ^ 16 + b2 * 2 ^ 8 + b3) :: bytesToWords rest
  | _ => []

/-- The SHA-256 digest of a byte string, as the final eight-word state. -/
def sha256Digest (msg : List Nat) : Sha256State :=
  (chunks64 (sha256Pad msg)).foldl (fun st blk => sha256Block st (bytesToWords blk)) sha256Init

/-- The lowercase hex digit characters. -/
def hexChar (n : Nat) : Char :=
  "0123456789abcdef".data.getD n 'x'

/-- Lowercase-hex rendering of one 32-bit word, most significant nibble first. -/
def wordHex (w : Nat) : List Char :=
  (List.range 8).map fun i => hexChar ((w >>> (4 * (7 - i))) % 16)

/-- The 64-character lowercase hexadecimal SHA-256 digest of a byte string. -/
def sha256HexChars (msg : List Nat) : List Char :=
  let st := sha256Digest msg
  [st.a, st.b, st.c, st.d, st.e, st.f, st.g, st.h].flatMap wordHex

/-- UTF-8 encoding of one character. -/
def charUtf8 (c : Char) : List Nat :=
  let n := c.toNat
  if n < 0x80 then [n]
  else if n < 0x800 then [0xc0 + n / 64, 0x80 + n % 64]
  else if n < 0x10000 then [0xe0 + n / 4096, 0x80 + n / 64 % 64, 0x80 + n % 64]
  else [0xf0 + n / 262144, 0x80 + n / 4096 % 64, 0x80 + n / 64 % 64, 0x80 + n % 64]

/-- UTF-8 bytes of a string. -/
def utf8Bytes (s : String) : List Nat := s.data.flatMap charUtf8

/-! ## Hashing-era resolver and per-document pass, modelled from the spec

The hashing build (flags `-hash`, `-hash-salt`, `-hash-length`, tested by
`TestApplyMaskTemplate` and `TestRedactFileWithHash`) is not part of the
source snapshot; these definitions are modelled from spec §4.4. -/

/-- Modelled from the spec: the hash fragment of §4.4 — "compute a
cryptographic digest over the concatenation of the configured salt and
the raw matched text (`digest(salt || rawMatch)`); take the first
`hashLength` hex characters of the digest's lowercase hexadecimal
representation as the fragment".  The missing code is the hashing branch
of the mask resolver. -/
def hashFragment (salt raw : String) (hashLength : Nat) : String :=
  ⟨(sha256HexChars (utf8Bytes (salt ++ raw))).take hashLength⟩

/-- Modelled from the spec: the hashing-era template resolver
(`applyMaskTemplate(template, label, n, hash)` in `main_test.go`, absent
from the snapshot) substituting `{label}`, `{n}` and `{hash}`. -/
def applyMaskTemplateHash (template label : String) (index : Nat) (hash : String) : String :=
  goReplaceAll (goReplaceAll (goReplaceAll template "{label}" label) "{n}" (Nat.repr index))
    "{hash}" hash

/-- Modelled from the spec: the sequence of hash invocations a
hashing-enabled pass performs for one detector over one document — one
per match, each pairing the raw matched text with the fragment the
resolver computes for it. -/
def hashInvocations (re : Regex) (salt : String) (hashLength : Nat) (content : String) :
    List (String × String) :=
  (allMatches re content.data).map fun m =>
    (⟨matchText content.data m⟩, hashFragment salt ⟨matchText content.data m⟩ hashLength)

/-- A per-document outcome of the current `redactFile`, which also
returns the (would-be) redacted content and a skip marker. -/
structure redactOutcome where
  report : fileReport
  content : String
  writes : List (String × String)
  skipped : Bool

/-- Modelled from the spec: the current `redactFile`, which — unlike the
snapshot's version — returns the would-be redacted content alongside the
report (spec §4.3 steps 4–5, `main_test.go` `TestRedactFileDryRun`):
under "preview only" (`dryRun`) no output is ever written, but counts and
the redacted content are still computed and returned; under skip-clean a
clean document is marked skipped and not written. -/
def redactFileRet (content path rel outputRoot : String) (patterns : List pattern)
    (mask maskTemplate : String) (dryRun skipClean : Bool) : redactOutcome :=
  let core := redactContentCore patterns mask maskTemplate content
  let target := if outputRoot = "" then "" else outputRoot ++ "/" ++ rel
  let total := sumRedactions core.2
  let skipped := skipClean ∧ total = 0
  let writes := if dryRun ∨ (skipClean ∧ total = 0) then [] else [(target, core.1)]
  ⟨⟨path, target, core.2, total⟩, core.1, writes, decide skipped⟩

/-! ## Shared helper lemmas -/

/-- If a template contains neither `\x7blabel\x7d` nor `\x7bn\x7d`, the
resolver leaves it unchanged. -/
theorem applyMaskTemplate_no_placeholder (t l : String) (n : Nat)
    (h1 : containsSub "{label}".data t.data = false)
    (h2 : containsSub "{n}".data t.data = false) :
    applyMaskTemplate t l n = t := by
  unfold applyMaskTemplate goReplaceAll
  rw [listReplace_of_not_containsSub _ _ _ h1]
  show String.mk (listReplace t.data "{n}".data (Nat.repr n).data) = t
  rw [listReplace_of_not_containsSub _ _ _ h2]

/-- The `total` loop computes the sum of the map's values, from any
accumulator. -/
theorem sumRedactionsFrom (m : List (String × Nat)) :
    ∀ a : Nat, m.foldl (fun acc kv => acc + kv.2) a = a + (m.map Prod.snd).sum := by
  induction m with
  | nil => intro a; simp
  | cons kv rest ih => intro a; simp [ih, add_assoc]

/-! ## Claims -/

/-- C1: the credit-card validator accepts a token exactly when, after
stripping spaces and hyphens, the remaining string has length 13–19, is
all decimal digits, and has a standard right-to-left Luhn checksum
(independently recomputed by `specLuhnSum`) divisible by 10; the two
reference card numbers behave as specified. -/
theorem claim1_luhn_validator :
    (∀ raw : List Char,
      luhnValidToken raw = true ↔
        (13 ≤ (strippedToken raw).length ∧ (strippedToken raw).length ≤ 19 ∧
          (strippedToken raw).all isGoDigit = true ∧
          specLuhnSum (((strippedToken raw).map fun c => c.toNat - 48).reverse) % 10 = 0))
    ∧ luhnValidToken "4111111111111111".data = true
    ∧ luhnValidToken "4111111111111112".data = false := by
  refine ⟨fun raw => ?_, by decide, by decide⟩
  unfold luhnValidToken luhnValid
  by_cases hlen : (strippedToken raw).length < 13 ∨ (strippedToken raw).length > 19
  · rw [if_pos hlen]
    constructor
    · intro h; exact absurd h (by simp)
    · rintro ⟨h1, h2, -⟩; omega
  · rw [if_neg hlen, luhnLoop_eq]
    rw [List.all_reverse, List.map_reverse]
    by_cases hd : (strippedToken raw).all isGoDigit = true
    · rw [if_pos hd]
      simp only [Nat.zero_add, beq_iff_eq]
      constructor
      · intro h; exact ⟨by omega, by omega, hd, h⟩
      · rintro ⟨-, -, -, h⟩; exact h
    · rw [if_neg hd]
      constructor
      · intro h; exact absurd h (by simp)
      · rintro ⟨-, -, h, -⟩; exact absurd h hd

/-- C4: the mask-template resolver substitutes `\x7blabel\x7d` and
`\x7bn\x7d` (every occurrence, including repeated ones), leaves text
without those placeholders — such as `\x7bhash\x7d` or unknown
placeholder text — unchanged, and resolves the reference example to
`[REDACTED:email:3]`. -/
theorem claim4_template_resolver :
    (∀ (t l : String) (n : Nat),
      containsSub "{label}".data t.data = false →
      containsSub "{n}".data t.data = false →
      applyMaskTemplate t l n = t)
    ∧ applyMaskTemplate "[REDACTED:{label}:{n}]" "email" 3 = "[REDACTED:email:3]"
    ∧ applyMaskTemplate "[{label}-{label}:{n}/{n}]" "email" 3 = "[email-email:3/3]"
    ∧ applyMaskTemplate "keep {hash} and {unknown} text" "email" 3
        = "keep {hash} and {unknown} text" := by
  exact ⟨applyMaskTemplate_no_placeholder, by decide, by decide, by decide⟩

/-- C4 witness: a template with only a `\x7bhash\x7d` placeholder is
returned unchanged. -/
theorem claim4_witness : applyMaskTemplate "x {hash} y" "email" 7 = "x {hash} y" :=
  claim4_template_resolver.1 "x {hash} y" "email" 7 (by decide) (by decide)

/-- C5 counterexample: re-applying the resolver with the same inputs can
change the string again — substituting `b` for `\x7blabel\x7d` inside
`\x7bla\x7blabel\x7del\x7d` manufactures a fresh `\x7blabel\x7d`, which
a second application then also substitutes. -/
theorem claim5_counterexample :
    ¬ (applyMaskTemplate (applyMaskTemplate "\x7bla{label}el\x7d" "b" 1) "b" 1
        = applyMaskTemplate "\x7bla{label}el\x7d" "b" 1) := by
  decide

/-- C5 (amended): re-application is the identity whenever the first
application's result contains no remaining `\x7blabel\x7d` or `\x7bn\x7d`
occurrence — in particular for ordinary templates whose placeholders are
fully consumed. -/
theorem claim5_template_idempotent (t l : String) (n : Nat)
    (h1 : containsSub "{label}".data (applyMaskTemplate t l n).data = false)
    (h2 : containsSub "{n}".data (applyMaskTemplate t l n).data = false) :
    applyMaskTemplate (applyMaskTemplate t l n) l n = applyMaskTemplate t l n :=
  applyMaskTemplate_no_placeholder _ l n h1 h2

/-- C5 witness: the standard template reaches a fixed point after one
application. -/
theorem claim5_witness :
    applyMaskTemplate (applyMaskTemplate "[REDACTED:{label}:{n}]" "email" 3) "email" 3
      = applyMaskTemplate "[REDACTED:{label}:{n}]" "email" 3 :=
  claim5_template_idempotent "[REDACTED:{label}:{n}]" "email" 3 (by decide) (by decide)

/-- C7: in every per-document outcome produced by `redactFile`, the
reported total equals the sum of the values of the per-label counts map. -/
theorem claim7_total_is_sum_of_counts :
    ∀ (content path rel outputRoot : String) (patterns : List pattern)
      (mask maskTemplate : String) (dryRun : Bool),
      (redactFileModel content path rel outputRoot patterns mask maskTemplate dryRun).1.total
        = (((redactFileModel content path rel outputRoot patterns mask maskTemplate
              dryRun).1.redactions).map Prod.snd).sum := by
  intro content path rel outputRoot patterns mask maskTemplate dryRun
  show sumRedactions _ = _
  rw [sumRedactions, sumRedactionsFrom]
  simp [redactFileModel]

/-- Bumping the same key twice accumulates. -/
theorem goMapAdd_add (k : String) :
    ∀ (m : List (String × Nat)) (a b : Nat),
      goMapAdd (goMapAdd m k a) k b = goMapAdd m k (a + b) := by
  intro m
  induction m with
  | nil => intro a b; simp [goMapAdd]
  | cons kv rest ih =>
    intro a b
    by_cases hk : kv.1 = k
    · cases kv; simp_all [goMapAdd, Nat.add_assoc]
    · cases kv; simp_all [goMapAdd]

/-- The credit-card replacement fold, in closed form: Luhn-valid match
texts are replaced by the mask and counted once each; Luhn-invalid match
texts are emitted verbatim and not counted. -/
theorem ccFold_spec (content : List Char) (label mask : String) :
    ∀ (ms : List (Nat × Nat)) (m0 : List (String × Nat)),
      replaceFuncFold content (ccMaskClosure label mask) ms m0 =
        (ms.map fun mt => (mt.1, mt.2,
            if luhnValidToken (matchText content mt) = true then mask.data
            else matchText content mt),
          if (ms.countP fun mt => luhnValidToken (matchText content mt)) = 0 then m0
          else goMapAdd m0 label
            (ms.countP fun mt => luhnValidToken (matchText content mt))) := by
  intro ms
  induction ms with
  | nil => intro m0; simp [replaceFuncFold]
  | cons mt rest ih =>
    intro m0
    by_cases hv : luhnValidToken (matchText content mt) = true
    · rw [replaceFuncFold]
      have hstep : ccMaskClosure label mask (matchText content mt) m0
          = (mask.data, goMapAdd m0 label 1) := by
        simp [ccMaskClosure, hv]
      rw [hstep, ih]
      by_cases hz : (rest.countP fun mt => luhnValidToken (matchText content mt)) = 0 <;>
        simp [List.countP_cons, hv, hz, goMapAdd_add, Nat.add_comm]
    · rw [replaceFuncFold]
      have hstep : ccMaskClosure label mask (matchText content mt) m0
          = (matchText content mt, m0) := by
        simp [ccMaskClosure, eq_false_of_ne_true hv]
      rw [hstep, ih]
      have hc : (List.countP (fun mt => luhnValidToken (matchText content mt)) (mt :: rest))
          = List.countP (fun mt => luhnValidToken (matchText content mt)) rest := by
        rw [List.countP_cons]; simp [hv]
      rw [hc]
      simp [hv]

/-- The document of the spec's credit-card gating test. -/
def ccGatingContent : String := "valid 4111 1111 1111 1111 invalid 4111 1111 1111 1112"

/-- C2: the redaction pass leaves Luhn-invalid credit-card matches
verbatim and uncounted while replacing and counting Luhn-valid ones
(closed forms of the credit-card replacement fold for the literal-mask
branch, and the verbatim-skip of the template branch), and on the
reference document only the first, Luhn-valid number is redacted with
`counts["credit_card"] = 1`. -/
theorem claim2_credit_card_gating :
    redactContentCore builtinPatterns "[REDACTED]" "" ccGatingContent
        = ("valid [REDACTED] invalid 4111 1111 1111 1112", [("credit_card", 1)])
    ∧ (∀ (mask : String) (content : List Char) (m0 : List (String × Nat)),
        replaceFuncFold content (ccMaskClosure "credit_card" mask)
            (allMatches creditCardRe content) m0 =
          ((allMatches creditCardRe content).map fun mt => (mt.1, mt.2,
              if luhnValidToken (matchText content mt) = true then mask.data
              else matchText content mt),
            if ((allMatches creditCardRe content).countP
                  fun mt => luhnValidToken (matchText content mt)) = 0 then m0
            else goMapAdd m0 "credit_card"
              ((allMatches creditCardRe content).countP
                fun mt => luhnValidToken (matchText content mt))))
    ∧ (∀ (tmpl : String) (text : List Char) (cnt : Nat) (m : List (String × Nat)),
        luhnValidToken text = false →
        templateClosure "credit_card" tmpl text (cnt, m) = (text, (cnt, m))) := by
  refine ⟨by decide, fun mask content m0 => ccFold_spec content "credit_card" mask _ m0,
    fun tmpl text cnt m hv => ?_⟩
  simp [templateClosure, hv]

/-- C2 witness: the Luhn-invalid reference number is emitted verbatim by
the template-branch closure without touching counter or counts. -/
theorem claim2_witness :
    templateClosure "credit_card" "[R:{n}]" "4111 1111 1111 1112".data (0, [])
      = ("4111 1111 1111 1112".data, (0, [])) :=
  claim2_credit_card_gating.2.2 "[R:{n}]" "4111 1111 1111 1112".data 0 [] (by decide)

/-- Labels of patterns accumulated by the custom-regex loop, on success. -/
theorem buildPatternsLoop_ok_labels (compile : String → Except String Regex) :
    ∀ (custom : List String) (acc pats : List pattern),
      buildPatternsLoop compile custom acc = .ok pats →
      pats.map pattern.label
        = acc.map pattern.label ++ custom.map (fun raw => "custom:" ++ raw) := by
  intro custom
  induction custom with
  | nil =>
    intro acc pats h
    cases h
    simp
  | cons raw rest ih =>
    intro acc pats h
    rw [buildPatternsLoop] at h
    cases hcr : compile raw with
    | error e => rw [hcr] at h; cases h
    | ok re =>
      rw [hcr] at h
      have := ih (acc ++ [⟨"custom:" ++ raw, re⟩]) pats h
      simpa using this

/-- C3: a successfully constructed detector set carries exactly the eight
built-in labels in their fixed order, then one `custom:`-labelled
detector per supplied regex in order, then one `name:`-labelled detector
per supplied name in order; and the detector loop of the redaction pass
consumes detectors head-first, each running on the state already
rewritten by all earlier detectors. -/
theorem claim3_detector_order :
    (∀ (compile : String → Except String Regex) (custom names : List String)
        (pats : List pattern),
      mainPatterns compile custom names = .ok pats →
      pats.map pattern.label
        = ["email", "phone", "ssn", "dob", "street_address", "url", "ip_address",
            "credit_card"]
          ++ custom.map (fun raw => "custom:" ++ raw)
          ++ names.map (fun name => "name:" ++ name))
    ∧ (∀ (mask mt : String) (p : pattern) (ps : List pattern)
        (st : List Char × List (String × Nat)),
        redactLoop mask mt (p :: ps) st = redactLoop mask mt ps (applyPattern mask mt p st)) := by
  constructor
  · intro compile custom names pats h
    rw [mainPatterns] at h
    cases hb : buildPatterns compile custom with
    | error e => rw [hb] at h; cases h
    | ok pats' =>
      rw [hb] at h
      cases h
      have hlab := buildPatternsLoop_ok_labels compile custom builtinPatterns pats' hb
      rw [List.map_append, hlab]
      have hname : (buildNamePatterns names).map pattern.label
          = names.map fun name => "name:" ++ name := by
        simp [buildNamePatterns]
      rw [hname]
      rfl
  · intro mask mt p ps st
    rfl

/-- C3 witness: one custom regex and one name yield the eight built-in
labels, then the custom label, then the name label. -/
theorem claim3_witness :
    (builtinPatterns ++ [(⟨"custom:x", Regex.eps⟩ : pattern)] ++ buildNamePatterns ["Ann"]).map
        pattern.label
      = ["email", "phone", "ssn", "dob", "street_address", "url", "ip_address",
          "credit_card", "custom:x", "name:Ann"] :=
  claim3_detector_order.1 (fun _ => .ok Regex.eps) ["x"] ["Ann"] _ rfl

/-- The custom-regex loop succeeds from any accumulator exactly when
every raw string compiles. -/
theorem buildPatternsLoop_ok_iff (compile : String → Except String Regex) :
    ∀ (custom : List String) (acc : List pattern),
      (∃ pats, buildPatternsLoop compile custom acc = .ok pats) ↔
        (∀ raw ∈ custom, ∃ re, compile raw = .ok re) := by
  intro custom
  induction custom with
  | nil => intro acc; simp [buildPatternsLoop]
  | cons raw rest ih =>
    intro acc
    cases hcr : compile raw with
    | error e =>
      simp only [buildPatternsLoop, hcr]
      constructor
      · rintro ⟨pats, h⟩; cases h
      · intro hall
        obtain ⟨re, hre⟩ := hall raw (List.mem_cons_self _ _)
        rw [hcr] at hre; cases hre
    | ok re =>
      simp only [buildPatternsLoop, hcr]
      constructor
      · intro h raw' hraw'
        rcases List.mem_cons.mp hraw' with rfl | hmem
        · exact ⟨re, hcr⟩
        · exact ((ih _).mp h) raw' hmem
      · intro hall
        exact (ih _).mpr fun raw' hraw' => hall raw' (List.mem_cons_of_mem _ hraw')

/-- On an all-compiling list the loop returns the accumulator followed by
the compiled custom detectors, in order. -/
theorem buildPatternsLoop_ok_val (compile : String → Except String Regex) :
    ∀ (custom : List String) (acc : List pattern),
      (∀ raw ∈ custom, ∃ re, compile raw = .ok re) →
      buildPatternsLoop compile custom acc
        = .ok (acc ++ custom.filterMap fun raw =>
            (compile raw).toOption.map fun re => (⟨"custom:" ++ raw, re⟩ : pattern)) := by
  intro custom
  induction custom with
  | nil => intro acc _; simp [buildPatternsLoop]
  | cons raw rest ih =>
    intro acc hall
    obtain ⟨re, hre⟩ := hall raw (List.mem_cons_self _ _)
    simp only [buildPatternsLoop, hre]
    rw [ih _ fun raw' hraw' => hall raw' (List.mem_cons_of_mem _ hraw')]
    simp [hre, Except.toOption]

/-- The loop reports the first failing raw string. -/
theorem buildPatternsLoop_first_err (compile : String → Except String Regex) :
    ∀ (pre : List String) (acc : List pattern) (raw : String) (post : List String)
      (e : String),
      (∀ r ∈ pre, ∃ re, compile r = .ok re) → compile raw = .error e →
      buildPatternsLoop compile (pre ++ raw :: post) acc
        = .error (invalidCustomRegexMsg raw e) := by
  intro pre
  induction pre with
  | nil =>
    intro acc raw post e _ herr
    simp only [List.nil_append, buildPatternsLoop, herr]
  | cons r rest ih =>
    intro acc raw post e hall herr
    obtain ⟨re, hre⟩ := hall r (List.mem_cons_self _ _)
    rw [List.cons_append]
    simp only [buildPatternsLoop, hre]
    exact ih _ raw post e (fun r' hr' => hall r' (List.mem_cons_of_mem _ hr')) herr

/-- C8: detector-set construction fails exactly when some custom regex
does not compile; on the first failing raw string it returns the error
naming that string, and when everything compiles it returns the full
list — built-ins followed by the compiled custom detectors. -/
theorem claim8_invalid_pattern :
    (∀ (compile : String → Except String Regex) (custom : List String),
      (∃ pats, buildPatterns compile custom = .ok pats) ↔
        (∀ raw ∈ custom, ∃ re, compile raw = .ok re))
    ∧ (∀ (compile : String → Except String Regex) (pre : List String) (raw : String)
        (post : List String) (e : String),
        (∀ r ∈ pre, ∃ re, compile r = .ok re) → compile raw = .error e →
        buildPatterns compile (pre ++ raw :: post)
          = .error (invalidCustomRegexMsg raw e))
    ∧ (∀ (compile : String → Except String Regex) (custom : List String),
        (∀ raw ∈ custom, ∃ re, compile raw = .ok re) →
        buildPatterns compile custom
          = .ok (builtinPatterns ++ custom.filterMap fun raw =>
              (compile raw).toOption.map fun re => (⟨"custom:" ++ raw, re⟩ : pattern))) :=
  ⟨fun compile custom => buildPatternsLoop_ok_iff compile custom builtinPatterns,
    fun compile pre raw post e hall herr =>
      buildPatternsLoop_first_err compile pre builtinPatterns raw post e hall herr,
    fun compile custom hall => buildPatternsLoop_ok_val compile custom builtinPatterns hall⟩

/-- C8 witness: with a compiler that rejects exactly `"("`, construction
on `["ok", "(", "x"]` fails with the error naming `"("`. -/
theorem claim8_witness :
    buildPatterns
        (fun s => if s = "(" then Except.error "missing closing )" else Except.ok Regex.eps)
        ["ok", "(", "x"]
      = Except.error (invalidCustomRegexMsg "(" "missing closing )") :=
  claim8_invalid_pattern.2.1
    (fun s => if s = "(" then Except.error "missing closing )" else Except.ok Regex.eps)
    ["ok"] "(" ["x"] "missing closing )"
    (by
      intro r hr
      simp only [List.mem_singleton] at hr
      subst hr
      exact ⟨Regex.eps, rfl⟩)
    rfl

/-- Bumping by a positive amount preserves positivity of all stored
counts. -/
theorem goMapAdd_pos (k : String) (d : Nat) (hd : 1 ≤ d) :
    ∀ m : List (String × Nat), (∀ kv ∈ m, 1 ≤ kv.2) →
      ∀ kv ∈ goMapAdd m k d, 1 ≤ kv.2 := by
  intro m
  induction m with
  | nil =>
    intro _ kv hkv
    simp only [goMapAdd, List.mem_singleton] at hkv
    subst hkv
    exact hd
  | cons kv₀ rest ih =>
    intro hinv kv hkv
    rcases kv₀ with ⟨k', v⟩
    by_cases hk : k' = k
    · rw [goMapAdd, if_pos hk] at hkv
      rcases List.mem_cons.mp hkv with rfl | hmem
      · simp; omega
      · exact hinv kv (List.mem_cons_of_mem _ hmem)
    · rw [goMapAdd, if_neg hk] at hkv
      rcases List.mem_cons.mp hkv with rfl | hmem
      · exact hinv _ (List.mem_cons_self _ _)
      · exact ih (fun kv' hkv' => hinv kv' (List.mem_cons_of_mem _ hkv')) kv hmem

/-- The template-branch fold preserves positivity of all stored counts. -/
theorem templateFold_pos (content : List Char) (label mt : String) :
    ∀ (ms : List (Nat × Nat)) (cnt : Nat) (m : List (String × Nat)),
      (∀ kv ∈ m, 1 ≤ kv.2) →
      ∀ kv ∈ (replaceFuncFold content (templateClosure label mt) ms (cnt, m)).2.2, 1 ≤ kv.2 := by
  intro ms
  induction ms with
  | nil => intro cnt m hinv; simpa [replaceFuncFold] using hinv
  | cons mt₀ rest ih =>
    intro cnt m hinv
    rw [replaceFuncFold]
    by_cases hskip : label = "credit_card" ∧ luhnValidToken (matchText content mt₀) = false
    · rw [templateClosure, if_pos hskip]
      exact ih cnt m hinv
    · rw [templateClosure, if_neg hskip]
      exact ih (cnt + 1) (goMapAdd m label 1) (goMapAdd_pos label 1 le_rfl m hinv)

/-- The credit-card-branch fold preserves positivity of all stored
counts. -/
theorem ccFold_pos (content : List Char) (label mask : String)
    (ms : List (Nat × Nat)) (m : List (String × Nat)) (hinv : ∀ kv ∈ m, 1 ≤ kv.2) :
    ∀ kv ∈ (replaceFuncFold content (ccMaskClosure label mask) ms m).2, 1 ≤ kv.2 := by
  rw [ccFold_spec]
  by_cases hz : (ms.countP fun mt => luhnValidToken (matchText content mt)) = 0
  · simpa [hz] using hinv
  · simp only [hz, if_false]
    exact goMapAdd_pos label _ (by omega) m hinv

/-- One detector pass preserves positivity of all stored counts. -/
theorem applyPattern_pos (mask mt : String) (pat : pattern) (c : List Char)
    (m : List (String × Nat)) (hinv : ∀ kv ∈ m, 1 ≤ kv.2) :
    ∀ kv ∈ (applyPattern mask mt pat (c, m)).2, 1 ≤ kv.2 := by
  rw [applyPattern]
  by_cases htmpl : mt ≠ ""
  · rw [if_pos htmpl]
    exact templateFold_pos c pat.label mt (allMatches pat.re c) 0 m hinv
  · rw [if_neg htmpl]
    by_cases hcc : pat.label = "credit_card"
    · rw [if_pos hcc]
      exact ccFold_pos c pat.label mask (allMatches pat.re c) m hinv
    · rw [if_neg hcc]
      by_cases hms : (allMatches pat.re c).isEmpty
      · simpa [hms] using hinv
      · simp only [hms, if_false]
        refine goMapAdd_pos pat.label _ ?_ m hinv
        have : allMatches pat.re c ≠ [] := by
          intro hnil; rw [hnil] at hms; exact hms rfl
        have := List.length_pos.mpr this
        omega

/-- The detector loop preserves positivity of all stored counts. -/
theorem redactLoop_pos (mask mt : String) :
    ∀ (pats : List pattern) (c : List Char) (m : List (String × Nat)),
      (∀ kv ∈ m, 1 ≤ kv.2) →
      ∀ kv ∈ (redactLoop mask mt pats (c, m)).2, 1 ≤ kv.2 := by
  intro pats
  induction pats with
  | nil => intro c m hinv; simpa [redactLoop] using hinv
  | cons pat rest ih =>
    intro c m hinv
    rw [redactLoop]
    have happ := applyPattern_pos mask mt pat c m hinv
    rcases hap : applyPattern mask mt pat (c, m) with ⟨c', m'⟩
    rw [hap] at happ
    exact ih c' m' happ

/-- C10: every count stored in a per-document counts map is strictly
positive — a label appears exactly when at least one redaction was
recorded for it — and a detector whose pattern finds no match leaves
both the content and the counts map completely unchanged (so it
contributes no zero entry). -/
theorem claim10_counts_positive :
    (∀ (patterns : List pattern) (mask maskTemplate content : String) (l : String) (v : Nat),
      (l, v) ∈ (redactContentCore patterns mask maskTemplate content).2 → 1 ≤ v)
    ∧ (∀ (mask mt : String) (pat : pattern) (c : List Char) (m : List (String × Nat)),
        allMatches pat.re c = [] → applyPattern mask mt pat (c, m) = (c, m)) := by
  constructor
  · intro patterns mask maskTemplate content l v hmem
    have h := redactLoop_pos mask ⟨goTrimSpace maskTemplate.data⟩ patterns content.data []
      (by simp)
    exact h (l, v) hmem
  · intro mask mt pat c m hms
    rw [applyPattern, hms]
    by_cases htmpl : mt ≠ ""
    · rw [if_pos htmpl]
      simp [replaceFuncFold, spliceAux]
    · rw [if_neg htmpl]
      by_cases hcc : pat.label = "credit_card"
      · rw [if_pos hcc]
        simp [replaceFuncFold, spliceAux]
      · rw [if_neg hcc]
        simp

/-- C10 witness: the SSN detector finds nothing in `"hello"` and leaves
content and counts untouched. -/
theorem claim10_witness :
    applyPattern "[REDACTED]" "" ⟨"ssn", ssnRe⟩ ("hello".data, []) = ("hello".data, []) :=
  claim10_counts_positive.2 "[REDACTED]" "" ⟨"ssn", ssnRe⟩ "hello".data [] (by decide)

/-- The digest rendering is 64 characters long. -/
theorem sha256HexChars_length (msg : List Nat) : (sha256HexChars msg).length = 64 := by
  simp [sha256HexChars, wordHex]

/-- Hex digit characters are hex digit characters. -/
theorem hexChar_mem (n : Nat) (h : n < 16) : hexChar n ∈ "0123456789abcdef".data := by
  interval_cases n <;> decide

/-- Every character of the digest rendering is a lowercase hex digit. -/
theorem sha256HexChars_mem (msg : List Nat) :
    ∀ ch ∈ sha256HexChars msg, ch ∈ "0123456789abcdef".data := by
  intro ch hch
  simp only [sha256HexChars, List.mem_flatMap] at hch
  obtain ⟨w, -, hw⟩ := hch
  simp only [wordHex, List.mem_map, List.mem_range] at hw
  obtain ⟨i, -, rfl⟩ := hw
  exact hexChar_mem _ (Nat.mod_lt _ (by norm_num))

/-- C6: the hash fragment attached to a redaction depends only on the
salt and the raw matched text — two invocations for equal raw matches,
whether in one document or across documents, produce the identical
fragment — and every fragment is the `hashLength`-character prefix of
the digest's 64-character lowercase-hex rendering; on the reference
inputs the fragment is the literal SHA-256 prefix `22fe92e1`. -/
theorem claim6_hash_determinism :
    (∀ (re : Regex) (salt : String) (len : Nat) (c1 c2 raw f1 f2 : String),
      (raw, f1) ∈ hashInvocations re salt len c1 →
      (raw, f2) ∈ hashInvocations re salt len c2 → f1 = f2)
    ∧ (∀ (salt raw : String) (len : Nat),
        (hashFragment salt raw len).length = min len 64 ∧
          ∀ ch ∈ (hashFragment salt raw len).data, ch ∈ "0123456789abcdef".data)
    ∧ hashFragment "salt" "test@example.com" 8 = "22fe92e1" := by
  refine ⟨?_, ?_, by decide⟩
  · intro re salt len c1 c2 raw f1 f2 h1 h2
    simp only [hashInvocations, List.mem_map, Prod.mk.injEq] at h1 h2
    obtain ⟨m1, -, hr1, hf1⟩ := h1
    obtain ⟨m2, -, hr2, hf2⟩ := h2
    rw [← hf1, ← hf2, hr1, hr2]
  · intro salt raw len
    constructor
    · show (List.take len (sha256HexChars (utf8Bytes (salt ++ raw)))).length = min len 64
      rw [List.length_take, sha256HexChars_length]
    · intro ch hch
      have : ch ∈ sha256HexChars (utf8Bytes (salt ++ raw)) :=
        List.take_subset _ _ hch
      exact sha256HexChars_mem _ ch this

/-- C6 witness: the digit `7` matched in two different documents gets the
same fragment under salt `s`. -/
theorem claim6_witness : ("13d28fed" : String) = "13d28fed" :=
  claim6_hash_determinism.1 (Regex.cls Char.isDigit) "s" 8 "x 7" "7 y" "7"
    "13d28fed" "13d28fed" (by decide) (by decide)

/-- C9: with preview-only (dry-run) active, the per-document redaction
writes nothing at all, while the per-label counts, the total and the
would-be redacted content are still computed and returned exactly as the
redaction core produces them. -/
theorem claim9_dry_run_writes_nothing :
    ∀ (content path rel outputRoot : String) (patterns : List pattern)
      (mask maskTemplate : String) (skipClean : Bool),
      (redactFileRet content path rel outputRoot patterns mask maskTemplate true
          skipClean).writes = []
      ∧ (redactFileRet content path rel outputRoot patterns mask maskTemplate true
          skipClean).content = (redactContentCore patterns mask maskTemplate content).1
      ∧ (redactFileRet content path rel outputRoot patterns mask maskTemplate true
          skipClean).report.redactions
          = (redactContentCore patterns mask maskTemplate content).2
      ∧ (redactFileRet content path rel outputRoot patterns mask maskTemplate true
          skipClean).report.total
          = sumRedactions (redactContentCore patterns mask maskTemplate content).2 := by
  intro content path rel outputRoot patterns mask maskTemplate skipClean
  refine ⟨?_, rfl, rfl, rfl⟩
  simp [redactFileRet]

end Anonymizer
